import Mathlib

/-!
Formal model of the Procurement-system budget service and of the
spec-level Budget Reservation & Procurement Saga Engine components.

Monetary amounts (`BigDecimal` with scale 2 in the Java source, "fixed-point
decimal, never floating point" in the spec) are embedded exactly: as
rationals `ℚ` for the budget-service entities and as integer minor units
`ℤ` for the spec-level ledger; subtraction and comparison are exact in
either embedding, as they are on `BigDecimal`.
-/

namespace Procurement

/-- Embeds `com.procurement.budget.entity.Department`
(src/services/budget-service/.../entity/Department.java): one budget row per
department and fiscal year.  `LocalDateTime` timestamps are embedded as `ℕ`
tick counts. -/
structure Department where
  id : String
  name : String
  totalBudget : ℚ
  usedBudget : ℚ
  reservedBudget : ℚ
  fiscalYear : ℤ
  currency : String
  createdAt : ℕ
  updatedAt : ℕ
  deriving Repr, DecidableEq

/-- Embeds `Department.getAvailableBudget`:
`totalBudget.subtract(usedBudget).subtract(reservedBudget)`. -/
def Department.getAvailableBudget (d : Department) : ℚ :=
  d.totalBudget - d.usedBudget - d.reservedBudget

/-- Embeds `com.procurement.budget.dto.BudgetAvailabilityResponse`
(src/services/budget-service/.../dto/BudgetAvailabilityResponse.java):
exactly the fields declared in the Java class. -/
structure BudgetAvailabilityResponse where
  departmentId : String
  departmentName : String
  totalBudget : ℚ
  usedBudget : ℚ
  reservedBudget : ℚ
  availableBudget : ℚ
  fiscalYear : ℤ
  currency : String
  status : String
  deriving Repr, DecidableEq

/-- Embeds the static factory `BudgetAvailabilityResponse.from(Department)`:
copies each entity field, sets `availableBudget` from
`department.getAvailableBudget()`, and sets
`status = availableBudget.compareTo(ZERO) > 0 ? "available" : "depleted"`. -/
def BudgetAvailabilityResponse.from (d : Department) : BudgetAvailabilityResponse :=
  { departmentId := d.id
    departmentName := d.name
    totalBudget := d.totalBudget
    usedBudget := d.usedBudget
    reservedBudget := d.reservedBudget
    availableBudget := d.getAvailableBudget
    fiscalYear := d.fiscalYear
    currency := d.currency
    status := if d.getAvailableBudget > 0 then "available" else "depleted" }

/-- A budget-query audit event as assembled in
`BudgetService.publishBudgetQueryEvent`: the `HashMap` payload sent to the
`budget.events` Kafka topic. -/
structure BudgetEvent where
  eventType : String
  departmentId : String
  availableBudget : ℚ
  totalBudget : ℚ
  deriving Repr, DecidableEq

/-- The state visible to `BudgetService`: the department repository rows and
the (external, append-only) Kafka event log. -/
structure BudgetServiceState where
  departments : List Department
  kafkaEvents : List BudgetEvent
  deriving Repr, DecidableEq

/-- Embeds `DepartmentRepository.findByIdAndFiscalYear`: the first stored row
whose `id` and `fiscalYear` both match. -/
def findByIdAndFiscalYear (rows : List Department) (deptId : String) (year : ℤ) :
    Option Department :=
  rows.find? (fun d => d.id == deptId && d.fiscalYear == year)

/-- Embeds `BudgetService.publishBudgetQueryEvent`.  The Kafka send may fail;
the Java method catches every exception ("Don't fail the request if Kafka
publish fails"), so the only observable effect is that the event is appended
when the send succeeds.  `kafkaOk` models whether the send throws. -/
def publishBudgetQueryEvent (kafkaOk : Bool) (deptId : String)
    (response : BudgetAvailabilityResponse) (log : List BudgetEvent) :
    List BudgetEvent :=
  if kafkaOk then
    log ++ [{ eventType := "BUDGET_QUERIED"
              departmentId := deptId
              availableBudget := response.availableBudget
              totalBudget := response.totalBudget }]
  else
    log

/-- Embeds `BudgetService.getAvailableBudget(String departmentId)`:
looks up the department for the current fiscal year, throws
`RuntimeException("Department not found: " + departmentId)` when absent,
otherwise builds the response, publishes the audit event (failures caught),
and returns the response.  Returns the result together with the post-state. -/
def BudgetService.getAvailableBudget (kafkaOk : Bool) (currentYear : ℤ)
    (st : BudgetServiceState) (departmentId : String) :
    Except String BudgetAvailabilityResponse × BudgetServiceState :=
  match findByIdAndFiscalYear st.departments departmentId currentYear with
  | none => (Except.error ("Department not found: " ++ departmentId), st)
  | some department =>
      let response := BudgetAvailabilityResponse.from department
      let log := publishBudgetQueryEvent kafkaOk departmentId response st.kafkaEvents
      (Except.ok response, { st with kafkaEvents := log })

end Procurement

namespace Procurement

/-- A concrete department row used by witnesses: $100 total, $60 used,
$40 reserved, so the available budget is exactly 0. -/
def deptZeroAvail : Department :=
  { id := "ENG", name := "Engineering", totalBudget := 100, usedBudget := 60,
    reservedBudget := 40, fiscalYear := 2026, currency := "USD",
    createdAt := 0, updatedAt := 0 }

/-- A concrete department row with $10000 total, $1500 used, $500 reserved. -/
def deptRich : Department :=
  { id := "OPS", name := "Operations", totalBudget := 10000, usedBudget := 1500,
    reservedBudget := 500, fiscalYear := 2026, currency := "USD",
    createdAt := 0, updatedAt := 0 }

/-- Concrete service state holding the two sample departments and an empty
event log. -/
def sampleState : BudgetServiceState :=
  { departments := [deptZeroAvail, deptRich], kafkaEvents := [] }

end Procurement

namespace Procurement

/-- C2: in every availability response built from a department row, the
reported `availableBudget` equals `totalBudget − usedBudget − reservedBudget`
exactly (rational, hence fixed-point-exact, arithmetic); and every successful
availability query reports exactly that difference for the row it found. -/
theorem availableBudget_is_exact_difference :
    (∀ d : Department,
      (BudgetAvailabilityResponse.from d).availableBudget =
        d.totalBudget - d.usedBudget - d.reservedBudget) ∧
    (∀ kafkaOk year st deptId r st2,
      BudgetService.getAvailableBudget kafkaOk year st deptId = (Except.ok r, st2) →
      r.availableBudget = r.totalBudget - r.usedBudget - r.reservedBudget) := by
  constructor
  · intro d
    rfl
  · intro kafkaOk year st deptId r st2 h
    unfold BudgetService.getAvailableBudget at h
    cases hf : findByIdAndFiscalYear st.departments deptId year with
    | none => rw [hf] at h; cases h
    | some d =>
        rw [hf] at h
        cases h
        rfl

/-- Witness for C2: evaluating the query on the concrete sample state. -/
theorem availableBudget_is_exact_difference_witness :
    (BudgetAvailabilityResponse.from deptRich).availableBudget =
      (10000 : ℚ) - 1500 - 500 :=
  availableBudget_is_exact_difference.1 deptRich

/-- C10: the `status` field of an availability response is `"available"` iff
the computed available budget is strictly positive, and `"depleted"` iff it
is not; a department whose available budget is exactly zero is reported
`"depleted"`. -/
theorem status_available_iff_positive :
    (∀ d : Department,
      ((BudgetAvailabilityResponse.from d).status = "available" ↔
        0 < d.getAvailableBudget) ∧
      ((BudgetAvailabilityResponse.from d).status = "depleted" ↔
        ¬ 0 < d.getAvailableBudget)) ∧
    (BudgetAvailabilityResponse.from deptZeroAvail).status = "depleted" := by
  have main : ∀ d : Department,
      ((BudgetAvailabilityResponse.from d).status = "available" ↔
        0 < d.getAvailableBudget) ∧
      ((BudgetAvailabilityResponse.from d).status = "depleted" ↔
        ¬ 0 < d.getAvailableBudget) := by
    intro d
    unfold BudgetAvailabilityResponse.from
    by_cases h : d.getAvailableBudget > 0
    · simp [h]
    · simp [h]
  refine ⟨main, ?_⟩
  have h0 : deptZeroAvail.getAvailableBudget = 0 := by
    norm_num [deptZeroAvail, Department.getAvailableBudget]
  exact (main deptZeroAvail).2.mpr (by rw [h0]; norm_num)

end Procurement

namespace Procurement

/-- C3: the availability query is read-only on the ledger: for every
department identifier and every pre-state, the department rows after
`BudgetService.getAvailableBudget` are exactly the rows before it, whether
the lookup succeeds or fails and whether the Kafka publish succeeds or
fails.  (The only thing the call may append to is the external audit event
log; no `Department` field is ever written.) -/
theorem getAvailableBudget_readonly :
    ∀ (kafkaOk : Bool) (year : ℤ) (st : BudgetServiceState) (deptId : String),
      (BudgetService.getAvailableBudget kafkaOk year st deptId).2.departments =
        st.departments := by
  intro kafkaOk year st deptId
  unfold BudgetService.getAvailableBudget
  cases findByIdAndFiscalYear st.departments deptId year with
  | none => rfl
  | some d => rfl

/-- C8: the availability query fails exactly when no department row matches
the identifier for the current fiscal year; when a row matches it returns
the response built from that row; and on failure the whole state (rows and
event log) is untouched. -/
theorem getAvailableBudget_error_characterisation :
    ∀ (kafkaOk : Bool) (year : ℤ) (st : BudgetServiceState) (deptId : String),
      ((∃ e, (BudgetService.getAvailableBudget kafkaOk year st deptId).1 =
          Except.error e) ↔
        findByIdAndFiscalYear st.departments deptId year = none) ∧
      (∀ d, findByIdAndFiscalYear st.departments deptId year = some d →
        (BudgetService.getAvailableBudget kafkaOk year st deptId).1 =
          Except.ok (BudgetAvailabilityResponse.from d)) ∧
      (findByIdAndFiscalYear st.departments deptId year = none →
        (BudgetService.getAvailableBudget kafkaOk year st deptId).2 = st) := by
  intro kafkaOk year st deptId
  cases hf : findByIdAndFiscalYear st.departments deptId year with
  | none =>
      refine ⟨⟨fun _ => rfl, fun _ => ?_⟩, ?_, ?_⟩
      · refine ⟨"Department not found: " ++ deptId, ?_⟩
        unfold BudgetService.getAvailableBudget
        rw [hf]
      · intro d hd
        cases hd
      · intro _
        unfold BudgetService.getAvailableBudget
        rw [hf]
  | some d =>
      refine ⟨⟨?_, ?_⟩, ?_, ?_⟩
      · intro he
        rcases he with ⟨e, he⟩
        unfold BudgetService.getAvailableBudget at he
        rw [hf] at he
        cases he
      · intro h
        cases h
      · intro d2 hd2
        cases hd2
        unfold BudgetService.getAvailableBudget
        rw [hf]
      · intro h
        cases h

/-- Witness for C8: on the concrete sample state, querying "OPS" in 2026
succeeds with the response built from `deptRich`, and querying the unknown
identifier "HR" leaves the state untouched. -/
theorem getAvailableBudget_error_characterisation_witness :
    (BudgetService.getAvailableBudget true 2026 sampleState "OPS").1 =
      Except.ok (BudgetAvailabilityResponse.from deptRich) ∧
    (BudgetService.getAvailableBudget true 2026 sampleState "HR").2 =
      sampleState :=
  ⟨(getAvailableBudget_error_characterisation true 2026 sampleState "OPS").2.1
      deptRich rfl,
   (getAvailableBudget_error_characterisation true 2026 sampleState "HR").2.2 rfl⟩

/-- C9: the response of the availability query does not depend on whether
the Kafka audit publish succeeds: the result component is identical for
`kafkaOk = true` and `kafkaOk = false`, because `publishBudgetQueryEvent`
catches every publish failure. -/
theorem getAvailableBudget_response_independent_of_kafka :
    ∀ (year : ℤ) (st : BudgetServiceState) (deptId : String),
      (BudgetService.getAvailableBudget true year st deptId).1 =
        (BudgetService.getAvailableBudget false year st deptId).1 := by
  intro year st deptId
  unfold BudgetService.getAvailableBudget
  cases findByIdAndFiscalYear st.departments deptId year with
  | none => rfl
  | some d => rfl

/-- Modelled from the spec: `checkAvailability(accountId, amount)` is
specified to report `sufficient` = "the requested amount is at most the
available amount"; the spec-side sufficiency predicate, used to compare the
spec against the code's response. -/
def specSufficient (requested available : ℚ) : Bool :=
  requested ≤ available

/-- C4 counterexample: the claim fails on the code.  The implemented
availability response (built by `BudgetAvailabilityResponse.from`, its only
constructor in the code path) carries no boolean `sufficient` field and no
requested amount; its only availability indicator is the `status` string.
Concretely, for `deptZeroAvail` (available budget exactly 0) and requested
amount 0, the spec-side sufficiency is `true` (0 ≤ 0) yet the response
reports `"depleted"`, not `"available"`: no field of the response expresses
"the requested amount is at most the available amount". -/
theorem checkAvailability_sufficient_counterexample :
    specSufficient 0
        ((BudgetAvailabilityResponse.from deptZeroAvail).availableBudget) = true ∧
    (BudgetAvailabilityResponse.from deptZeroAvail).status = "depleted" ∧
    (BudgetAvailabilityResponse.from deptZeroAvail).status ≠ "available" := by
  have h0 : deptZeroAvail.getAvailableBudget = 0 := by
    norm_num [deptZeroAvail, Department.getAvailableBudget]
  refine ⟨?_, ?_, ?_⟩
  · show specSufficient 0 deptZeroAvail.getAvailableBudget = true
    rw [h0]
    rfl
  · show (if deptZeroAvail.getAvailableBudget > 0 then "available" else "depleted") =
      "depleted"
    rw [h0, if_neg (lt_irrefl (0 : ℚ))]
  · show (if deptZeroAvail.getAvailableBudget > 0 then "available" else "depleted") ≠
      "available"
    rw [h0, if_neg (lt_irrefl (0 : ℚ))]
    decide

/-- C4 amended: the availability check in the code takes a department
identifier only and returns the full typed record
`BudgetAvailabilityResponse` — never a bare boolean — whose decimal
`availableBudget` is the exact available amount of the row found and whose
`status` string is `"available"` when that amount is positive and
`"depleted"` otherwise; no boolean `sufficient` field and no requested
amount are involved. -/
theorem checkAvailability_returns_typed_record :
    ∀ (kafkaOk : Bool) (year : ℤ) (st : BudgetServiceState) (deptId : String)
      (d : Department),
      findByIdAndFiscalYear st.departments deptId year = some d →
      (BudgetService.getAvailableBudget kafkaOk year st deptId).1 =
        Except.ok
          { departmentId := d.id
            departmentName := d.name
            totalBudget := d.totalBudget
            usedBudget := d.usedBudget
            reservedBudget := d.reservedBudget
            availableBudget := d.totalBudget - d.usedBudget - d.reservedBudget
            fiscalYear := d.fiscalYear
            currency := d.currency
            status := if 0 < d.totalBudget - d.usedBudget - d.reservedBudget
              then "available" else "depleted" } := by
  intro kafkaOk year st deptId d hd
  unfold BudgetService.getAvailableBudget
  rw [hd]
  rfl

/-- Witness for C4 amended: the query on "OPS" returns the explicit typed
record for `deptRich`. -/
theorem checkAvailability_returns_typed_record_witness :
    (BudgetService.getAvailableBudget true 2026 sampleState "OPS").1 =
      Except.ok
        { departmentId := "OPS"
          departmentName := "Operations"
          totalBudget := 10000
          usedBudget := 1500
          reservedBudget := 500
          availableBudget := (10000 : ℚ) - 1500 - 500
          fiscalYear := 2026
          currency := "USD"
          status := if (0 : ℚ) < 10000 - 1500 - 500 then "available" else "depleted" } :=
  checkAvailability_returns_typed_record true 2026 sampleState "OPS" deptRich rfl

end Procurement

namespace Procurement

/-- Modelled from the spec: the repository ships no Budget Control Service
mutation code under src/ (the budget service only implements the read-only
availability query), so the §3/§4.1 ledger data model is taken from the
spec's words.  Reservation states from the `state` field of a Reservation. -/
inductive ResState where
  | Reserved
  | Confirmed
  | PartiallySpent
  | Spent
  | Released
  | Cancelled
  deriving Repr, DecidableEq

/-- Modelled from the spec: a Reservation, "identified by a requester-supplied
business key, unique per ledger account", with its original `amount` and the
remaining unspent portion still held against the account.  Monetary amounts
are fixed-point decimal; they are embedded as integer minor units (`ℤ`). -/
structure Reservation where
  businessKey : String
  amount : ℤ
  remaining : ℤ
  state : ResState
  deriving Repr, DecidableEq

/-- Modelled from the spec: the LedgerAccount fields `totalAllocated`,
`spent`, `reserved` (fixed-point decimal, embedded as `ℤ` minor units). -/
structure LedgerAccount where
  totalAllocated : ℤ
  spent : ℤ
  reserved : ℤ
  deriving Repr, DecidableEq

/-- Modelled from the spec: `available = totalAllocated − spent − reserved`. -/
def LedgerAccount.available (a : LedgerAccount) : ℤ :=
  a.totalAllocated - a.spent - a.reserved

/-- Modelled from the spec: LedgerTransaction types. -/
inductive TxType where
  | Allocate
  | Reserve
  | Release
  | Spend
  | TopUp
  deriving Repr, DecidableEq

/-- Modelled from the spec: the immutable audit record appended inside the
same atomic operation that mutates the LedgerAccount. -/
structure LedgerTransaction where
  txType : TxType
  amount : ℤ
  balanceBefore : ℤ
  balanceAfter : ℤ
  deriving Repr, DecidableEq

/-- Modelled from the spec: the state owned by the Budget Control Service for
one ledger account: the balance row, its reservations, and the append-only
transaction log. -/
structure LedgerState where
  account : LedgerAccount
  reservations : List Reservation
  transactions : List LedgerTransaction
  deriving Repr, DecidableEq

/-- Modelled from the spec: look up the Reservation with the given business
key (unique per account). -/
def findReservation (rs : List Reservation) (businessKey : String) :
    Option Reservation :=
  rs.find? (fun r => r.businessKey == businessKey)

/-- Modelled from the spec: result of `reserve` — a created Reservation, the
unchanged existing Reservation for the same business key, or
`InsufficientFundsError` carrying the actual available amount. -/
inductive ReserveResult where
  | created (r : Reservation)
  | existing (r : Reservation)
  | insufficientFunds (available : ℤ)
  deriving Repr, DecidableEq

/-- Modelled from the spec: the account created "when a department's budget
is first allocated": `totalAllocated` set, nothing spent or reserved, an
Allocate transaction appended. -/
def allocateLedger (amount : ℤ) : LedgerState :=
  { account := { totalAllocated := amount, spent := 0, reserved := 0 }
    reservations := []
    transactions := [{ txType := TxType.Allocate, amount := amount,
                       balanceBefore := 0, balanceAfter := amount }] }

/-- Modelled from the spec: `reserve(accountId, businessKey, amount, actor)`.
If a Reservation with the same business key already exists it is returned
unchanged (idempotent per business key).  Otherwise the balance is re-read,
`available` computed, and compared against the (nonnegative monetary)
`amount`; if insufficient, `InsufficientFundsError` with the actual available
amount and no partial reservation; on success `reserved` is incremented, the
Reservation row inserted, and a Reserve LedgerTransaction appended
atomically. -/
def reserve (st : LedgerState) (businessKey : String) (amount : ℤ) :
    ReserveResult × LedgerState :=
  match findReservation st.reservations businessKey with
  | some r => (ReserveResult.existing r, st)
  | none =>
      if 0 ≤ amount ∧ amount ≤ st.account.available then
        let r : Reservation :=
          { businessKey := businessKey, amount := amount, remaining := amount,
            state := ResState.Reserved }
        (ReserveResult.created r,
         { account := { st.account with reserved := st.account.reserved + amount }
           reservations := r :: st.reservations
           transactions := st.transactions ++
             [{ txType := TxType.Reserve, amount := amount,
                balanceBefore := st.account.available,
                balanceAfter := st.account.available - amount }] })
      else
        (ReserveResult.insufficientFunds st.account.available, st)

/-- Modelled from the spec: update the (unique) reservation row with the
given business key; rows are identified by key, so only the first match is
touched. -/
def updateReservation (rs : List Reservation) (businessKey : String)
    (f : Reservation → Reservation) : List Reservation :=
  match rs with
  | [] => []
  | q :: rest =>
      if q.businessKey == businessKey then f q :: rest
      else q :: updateReservation rest businessKey f

/-- Modelled from the spec: `release(reservationId, actor)`.  Idempotent:
releasing an already-released or already-spent (or absent) reservation is a
no-op that still succeeds.  Otherwise decrements `reserved` by the
reservation's remaining unspent amount, transitions it to Released, and
appends a Release LedgerTransaction. -/
def release (st : LedgerState) (businessKey : String) : LedgerState :=
  match findReservation st.reservations businessKey with
  | none => st
  | some r =>
      if r.state = ResState.Released ∨ r.state = ResState.Spent then st
      else
        { account := { st.account with reserved := st.account.reserved - r.remaining }
          reservations := updateReservation st.reservations businessKey
            (fun q => { q with remaining := 0, state := ResState.Released })
          transactions := st.transactions ++
            [{ txType := TxType.Release, amount := r.remaining,
               balanceBefore := st.account.available,
               balanceAfter := st.account.available + r.remaining }] }

/-- Modelled from the spec: result of `spend` — success, `OverspendError`
when the amount exceeds the reservation's remaining reserved amount, or an
unknown reservation. -/
inductive SpendResult where
  | ok
  | overspend (remaining : ℤ)
  | notFound
  deriving Repr, DecidableEq

/-- Modelled from the spec: `spend(reservationId, amount, actor)`.  The
(nonnegative monetary) `amount` must be at most the reservation's remaining
reserved amount, else `OverspendError`; on success moves `amount` from
`reserved` to `spent`, supports partial spends (state `PartiallySpent` until
the full reserved amount is consumed), and appends a Spend transaction. -/
def spend (st : LedgerState) (businessKey : String) (amount : ℤ) :
    SpendResult × LedgerState :=
  match findReservation st.reservations businessKey with
  | none => (SpendResult.notFound, st)
  | some r =>
      if 0 ≤ amount ∧ amount ≤ r.remaining then
        (SpendResult.ok,
         { account := { totalAllocated := st.account.totalAllocated,
                        spent := st.account.spent + amount,
                        reserved := st.account.reserved - amount }
           reservations := updateReservation st.reservations businessKey
             (fun q =>
               { q with
                 remaining := q.remaining - amount
                 state := if q.remaining - amount = 0 then ResState.Spent
                   else ResState.PartiallySpent })
           transactions := st.transactions ++
             [{ txType := TxType.Spend, amount := amount,
                balanceBefore := st.account.available,
                balanceAfter := st.account.available }] })
      else
        (SpendResult.overspend r.remaining, st)

/-- Modelled from the spec: `topUp(accountId, amount, actor)` increases
`totalAllocated` by the (nonnegative monetary) amount and appends a TopUp
transaction. -/
def topUp (st : LedgerState) (amount : ℤ) : LedgerState :=
  if 0 ≤ amount then
    { st with
      account := { st.account with
                   totalAllocated := st.account.totalAllocated + amount }
      transactions := st.transactions ++
        [{ txType := TxType.TopUp, amount := amount,
           balanceBefore := st.account.available,
           balanceAfter := st.account.available + amount }] }
  else st

/-- Modelled from the spec: the ledger states reachable through the Budget
Control Service operations, starting from a first (nonnegative) budget
allocation. -/
inductive ReachableLedger : LedgerState → Prop where
  | allocate (amount : ℤ) (h : 0 ≤ amount) : ReachableLedger (allocateLedger amount)
  | reserveStep (s : LedgerState) (k : String) (a : ℤ) :
      ReachableLedger s → ReachableLedger (reserve s k a).2
  | releaseStep (s : LedgerState) (k : String) :
      ReachableLedger s → ReachableLedger (release s k)
  | spendStep (s : LedgerState) (k : String) (a : ℤ) :
      ReachableLedger s → ReachableLedger (spend s k a).2
  | topUpStep (s : LedgerState) (a : ℤ) :
      ReachableLedger s → ReachableLedger (topUp s a)

/-- The ledger invariant: `spent + reserved ≤ totalAllocated`, together with
the auxiliary fact that every reservation's remaining unspent amount is
nonnegative (monetary amounts), which release/spend preservation needs. -/
def LedgerInv (s : LedgerState) : Prop :=
  s.account.spent + s.account.reserved ≤ s.account.totalAllocated ∧
  ∀ r ∈ s.reservations, 0 ≤ r.remaining

end Procurement

namespace Procurement

/-- A reservation found by key is a member of the reservation list. -/
theorem findReservation_mem {rs : List Reservation} {k : String}
    {r : Reservation} (h : findReservation rs k = some r) : r ∈ rs :=
  List.mem_of_find?_eq_some h

/-- Membership after a keyed update: the element was already present, or it
is the image under `f` of the reservation the key lookup finds. -/
theorem mem_updateReservation {rs : List Reservation} {k : String}
    {f : Reservation → Reservation} {q : Reservation}
    (hq : q ∈ updateReservation rs k f) :
    q ∈ rs ∨ ∃ r, findReservation rs k = some r ∧ q = f r := by
  induction rs with
  | nil =>
      simp [updateReservation] at hq
  | cons a rest ih =>
      by_cases h : (a.businessKey == k) = true
      · rw [updateReservation, if_pos h] at hq
        rcases List.mem_cons.mp hq with hqa | hqrest
        · refine Or.inr ⟨a, ?_, hqa⟩
          unfold findReservation
          exact List.find?_cons_of_pos rest h
        · exact Or.inl (List.mem_cons_of_mem _ hqrest)
      · rw [updateReservation, if_neg h] at hq
        rcases List.mem_cons.mp hq with hqa | hqrest
        · exact Or.inl (hqa ▸ List.mem_cons_self _ _)
        · rcases ih hqrest with hin | ⟨r, hfind, hfr⟩
          · exact Or.inl (List.mem_cons_of_mem _ hin)
          · refine Or.inr ⟨r, ?_, hfr⟩
            unfold findReservation at hfind ⊢
            exact (List.find?_cons_of_neg rest h).trans hfind

/-- Allocation establishes the ledger invariant. -/
theorem ledgerInv_allocate (a : ℤ) (h : 0 ≤ a) : LedgerInv (allocateLedger a) := by
  refine ⟨?_, ?_⟩
  · simpa [allocateLedger] using h
  · intro r hr
    simp [allocateLedger] at hr

/-- `reserve` preserves the ledger invariant. -/
theorem ledgerInv_reserve (s : LedgerState) (k : String) (a : ℤ)
    (h : LedgerInv s) : LedgerInv (reserve s k a).2 := by
  unfold reserve
  cases hf : findReservation s.reservations k with
  | some r => exact h
  | none =>
      by_cases hg : 0 ≤ a ∧ a ≤ s.account.available
      · rw [if_pos hg]
        refine ⟨?_, ?_⟩
        · have h1 := h.1
          have h2 := hg.2
          unfold LedgerAccount.available at h2
          simp only
          omega
        · intro r hr
          simp only at hr
          rcases List.mem_cons.mp hr with hnew | hold
          · rw [hnew]
            exact hg.1
          · exact h.2 r hold
      · rw [if_neg hg]
        exact h

/-- `release` preserves the ledger invariant. -/
theorem ledgerInv_release (s : LedgerState) (k : String)
    (h : LedgerInv s) : LedgerInv (release s k) := by
  unfold release
  split
  · exact h
  · rename_i r hf
    split
    · exact h
    · rename_i hs
      have hrem : 0 ≤ r.remaining := h.2 r (findReservation_mem hf)
      refine ⟨?_, ?_⟩
      · have h1 := h.1
        simp only
        omega
      · intro q hq
        simp only at hq
        rcases mem_updateReservation hq with hin | ⟨r2, hfind2, hq2⟩
        · exact h.2 q hin
        · rw [hq2]

/-- `spend` preserves the ledger invariant. -/
theorem ledgerInv_spend (s : LedgerState) (k : String) (a : ℤ)
    (h : LedgerInv s) : LedgerInv (spend s k a).2 := by
  unfold spend
  split
  · exact h
  · rename_i r hf
    split
    · rename_i hg
      refine ⟨?_, ?_⟩
      · have h1 := h.1
        simp only
        omega
      · intro q hq
        simp only at hq
        rcases mem_updateReservation hq with hin | ⟨r2, hfind2, hq2⟩
        · exact h.2 q hin
        · rw [hfind2] at hf
          cases hf
          rw [hq2]
          simp only
          omega
    · exact h

/-- `topUp` preserves the ledger invariant. -/
theorem ledgerInv_topUp (s : LedgerState) (a : ℤ)
    (h : LedgerInv s) : LedgerInv (topUp s a) := by
  unfold topUp
  by_cases ha : 0 ≤ a
  · rw [if_pos ha]
    refine ⟨?_, ?_⟩
    · have h1 := h.1
      simp only
      omega
    · intro q hq
      exact h.2 q hq
  · rw [if_neg ha]
    exact h

/-- Every reachable ledger state satisfies the full invariant. -/
theorem ledgerInv_of_reachable (s : LedgerState) (h : ReachableLedger s) :
    LedgerInv s := by
  induction h with
  | allocate a ha => exact ledgerInv_allocate a ha
  | reserveStep s k a _ ih => exact ledgerInv_reserve s k a ih
  | releaseStep s k _ ih => exact ledgerInv_release s k ih
  | spendStep s k a _ ih => exact ledgerInv_spend s k a ih
  | topUpStep s a _ ih => exact ledgerInv_topUp s a ih

/-- C1: for every ledger state reachable through the Budget Control Service
operations (allocate, reserve, release, spend, topUp),
`spent + reserved ≤ totalAllocated`, equivalently
`available = totalAllocated − spent − reserved ≥ 0`: every mutating
operation preserves the budget invariant. -/
theorem ledger_spent_reserved_le_total (s : LedgerState)
    (h : ReachableLedger s) :
    s.account.spent + s.account.reserved ≤ s.account.totalAllocated ∧
    0 ≤ s.account.available := by
  have hinv := (ledgerInv_of_reachable s h).1
  unfold LedgerAccount.available
  omega

/-- Witness for C1: allocate 10000, reserve 8000 under key "R1", then spend
3000 of it; the resulting concrete state satisfies the invariant. -/
theorem ledger_spent_reserved_le_total_witness :
    ((spend (reserve (allocateLedger 10000) "R1" 8000).2 "R1" 3000).2).account.spent +
      ((spend (reserve (allocateLedger 10000) "R1" 8000).2 "R1" 3000).2).account.reserved ≤
      ((spend (reserve (allocateLedger 10000) "R1" 8000).2 "R1" 3000).2).account.totalAllocated ∧
    0 ≤ ((spend (reserve (allocateLedger 10000) "R1" 8000).2 "R1" 3000).2).account.available :=
  ledger_spent_reserved_le_total _
    (ReachableLedger.spendStep _ "R1" 3000
      (ReachableLedger.reserveStep _ "R1" 8000
        (ReachableLedger.allocate 10000 (by decide))))

end Procurement

namespace Procurement

/-- Computation rule: `reserve` with a business key that already has a
Reservation returns it unchanged and leaves the state untouched. -/
theorem reserve_eq_of_found {s : LedgerState} {k : String} {a : ℤ}
    {q : Reservation} (hf : findReservation s.reservations k = some q) :
    reserve s k a = (ReserveResult.existing q, s) := by
  unfold reserve
  rw [hf]

/-- Computation rule: a fresh `reserve` with sufficient funds creates the
Reservation, increments `reserved`, and appends the Reserve transaction. -/
theorem reserve_eq_of_fresh_ok {s : LedgerState} {k : String} {a : ℤ}
    (hf : findReservation s.reservations k = none)
    (hg : 0 ≤ a ∧ a ≤ s.account.available) :
    reserve s k a =
      (ReserveResult.created
        { businessKey := k, amount := a, remaining := a,
          state := ResState.Reserved },
       { account := { s.account with reserved := s.account.reserved + a }
         reservations :=
           { businessKey := k, amount := a, remaining := a,
             state := ResState.Reserved } :: s.reservations
         transactions := s.transactions ++
           [{ txType := TxType.Reserve, amount := a,
              balanceBefore := s.account.available,
              balanceAfter := s.account.available - a }] }) := by
  unfold reserve
  rw [hf, if_pos hg]

/-- Computation rule: a fresh `reserve` with insufficient funds returns
`InsufficientFundsError` with the actual available amount and leaves the
state untouched. -/
theorem reserve_eq_of_fresh_insufficient {s : LedgerState} {k : String}
    {a : ℤ} (hf : findReservation s.reservations k = none)
    (hg : ¬(0 ≤ a ∧ a ≤ s.account.available)) :
    reserve s k a = (ReserveResult.insufficientFunds s.account.available, s) := by
  unfold reserve
  rw [hf, if_neg hg]

/-- C5: `reserve` is idempotent per business key.  If a first call
`reserve s k a` returned the Reservation `r` (created or pre-existing) with
post-state `s1`, then a second call with the same business key and amount
returns exactly the same Reservation, as `existing r`, and leaves the state
(in particular the account's `reserved` amount) exactly `s1`: availability
is never double-decremented. -/
theorem reserve_idempotent_per_business_key (s s1 : LedgerState) (k : String)
    (a : ℤ) (r : Reservation) (res1 : ReserveResult)
    (hcall : reserve s k a = (res1, s1))
    (hres : res1 = ReserveResult.created r ∨ res1 = ReserveResult.existing r) :
    reserve s1 k a = (ReserveResult.existing r, s1) := by
  cases hf : findReservation s.reservations k with
  | some q =>
      rw [reserve_eq_of_found hf] at hcall
      injection hcall with h1 h2
      subst h2
      rcases hres with h | h
      · rw [← h1] at h
        cases h
      · rw [← h1] at h
        injection h with hqr
        subst hqr
        exact reserve_eq_of_found hf
  | none =>
      by_cases hg : 0 ≤ a ∧ a ≤ s.account.available
      · rw [reserve_eq_of_fresh_ok hf hg] at hcall
        injection hcall with h1 h2
        subst h2
        rcases hres with h | h
        · rw [← h1] at h
          injection h with hr
          subst hr
          refine reserve_eq_of_found ?_
          unfold findReservation
          exact List.find?_cons_of_pos _ (beq_self_eq_true k)
        · rw [← h1] at h
          cases h
      · rw [reserve_eq_of_fresh_insufficient hf hg] at hcall
        injection hcall with h1 h2
        rcases hres with h | h <;> rw [← h1] at h <;> cases h

/-- Witness for C5: allocate 10000, reserve 8000 under key "R1"; the replayed
reserve returns the same Reservation and the unchanged post-state. -/
theorem reserve_idempotent_per_business_key_witness :
    reserve ((reserve (allocateLedger 10000) "R1" 8000).2) "R1" 8000 =
      (ReserveResult.existing
        { businessKey := "R1", amount := 8000, remaining := 8000,
          state := ResState.Reserved },
       (reserve (allocateLedger 10000) "R1" 8000).2) :=
  reserve_idempotent_per_business_key (allocateLedger 10000) _ "R1" 8000 _ _
    Prod.mk.eta.symm (Or.inl (by decide))

end Procurement

namespace Procurement

/-- Modelled from the spec: the Reconciliation Engine is absent from src/
(the repository only documents it), so the §4.4 match verdict is taken from
the spec's words. -/
inductive Verdict where
  | Matched
  | WithinTolerance
  | Mismatch
  deriving Repr, DecidableEq

/-- Modelled from the spec: the MatchResult record of §3, produced once per
invoice from the order, goods-receipt and invoice amounts. -/
structure MatchResult where
  poAmount : ℚ
  receiptAmount : ℚ
  invoiceAmount : ℚ
  variance : ℚ
  variancePercent : ℚ
  tolerancePercent : ℚ
  verdict : Verdict
  deriving Repr, DecidableEq

/-- Modelled from the spec:
`match(order, receipt, invoice, tolerancePercent) → MatchResult` of §4.4.
`variance = invoiceAmount − receiptAmount`;
`variancePercent = |variance| / receiptAmount * 100`, guarded against
division by zero when `receiptAmount == 0`, in which case any nonzero
invoice is an automatic Mismatch; verdict `Matched` if `variance == 0`,
`WithinTolerance` if `variancePercent ≤ tolerancePercent`, otherwise
`Mismatch`. -/
def reconcileMatch (poAmount receiptAmount invoiceAmount tolerancePercent : ℚ) :
    MatchResult :=
  { poAmount := poAmount
    receiptAmount := receiptAmount
    invoiceAmount := invoiceAmount
    variance := invoiceAmount - receiptAmount
    variancePercent :=
      if receiptAmount = 0 then 0
      else |invoiceAmount - receiptAmount| / receiptAmount * 100
    tolerancePercent := tolerancePercent
    verdict :=
      if invoiceAmount - receiptAmount = 0 then Verdict.Matched
      else if receiptAmount = 0 then Verdict.Mismatch
      else if |invoiceAmount - receiptAmount| / receiptAmount * 100 ≤ tolerancePercent
        then Verdict.WithinTolerance
      else Verdict.Mismatch }

/-- C6: the reconciliation verdict is `Matched` exactly when
`invoiceAmount − receiptAmount = 0`; `WithinTolerance` exactly when the
variance is nonzero, the receipt is nonzero, and the absolute variance as a
percentage of the receipt is within the tolerance; `Mismatch` exactly
otherwise (a zero receipt with a nonzero invoice is an automatic Mismatch);
and at the spec's boundary (receipt 1000, tolerance 5%) invoice 1049 is
`WithinTolerance` while invoice 1051 is `Mismatch`. -/
theorem reconcile_verdict_characterisation :
    (∀ po r i t : ℚ,
      ((reconcileMatch po r i t).verdict = Verdict.Matched ↔ i - r = 0) ∧
      ((reconcileMatch po r i t).verdict = Verdict.WithinTolerance ↔
        i - r ≠ 0 ∧ r ≠ 0 ∧ |i - r| / r * 100 ≤ t) ∧
      ((reconcileMatch po r i t).verdict = Verdict.Mismatch ↔
        i - r ≠ 0 ∧ (r = 0 ∨ t < |i - r| / r * 100))) ∧
    (reconcileMatch 1000 1000 1049 5).verdict = Verdict.WithinTolerance ∧
    (reconcileMatch 1000 1000 1051 5).verdict = Verdict.Mismatch := by
  have main : ∀ po r i t : ℚ,
      ((reconcileMatch po r i t).verdict = Verdict.Matched ↔ i - r = 0) ∧
      ((reconcileMatch po r i t).verdict = Verdict.WithinTolerance ↔
        i - r ≠ 0 ∧ r ≠ 0 ∧ |i - r| / r * 100 ≤ t) ∧
      ((reconcileMatch po r i t).verdict = Verdict.Mismatch ↔
        i - r ≠ 0 ∧ (r = 0 ∨ t < |i - r| / r * 100)) := by
    intro po r i t
    simp only [reconcileMatch]
    by_cases h1 : i - r = 0
    · rw [if_pos h1]
      simp [h1]
    · rw [if_neg h1]
      by_cases h2 : r = 0
      · rw [if_pos h2]
        have h1i : ¬i = 0 := by simpa [h2] using h1
        simp [h1, h2, h1i]
      · rw [if_neg h2]
        by_cases h3 : |i - r| / r * 100 ≤ t
        · rw [if_pos h3]
          simp [h1, h2, h3, not_lt.mpr h3]
        · rw [if_neg h3]
          simp [h1, h2, h3, not_le.mp h3]
  refine ⟨main, ?_, ?_⟩
  · exact (main 1000 1000 1049 5).2.1.mpr (by norm_num)
  · exact (main 1000 1000 1051 5).2.2.mpr (by norm_num)

end Procurement

namespace Procurement

/-- Modelled from the spec: the Idempotency Cache of §4.3 is absent from
src/ (only design documents describe it), so the IdempotencyRecord is taken
from the spec's words: a stored request fingerprint and the previously
computed response for a key. -/
structure IdemEntry (α : Type) where
  fingerprint : String
  response : α
  deriving Repr, DecidableEq

/-- Modelled from the spec: the cache (key → record) together with a
side-effect counter counting how many times the underlying operation has
actually executed (the spec's "verify via a side-effect counter"). -/
structure IdemState (α : Type) where
  cache : List (String × IdemEntry α)
  counter : ℕ
  deriving Repr, DecidableEq

/-- Modelled from the spec: look up the stored record for a key. -/
def lookupIdem {α : Type} (cache : List (String × IdemEntry α)) (key : String) :
    Option (IdemEntry α) :=
  (cache.find? (fun e => e.1 == key)).map Prod.snd

/-- Modelled from the spec: the Conflict error for a reused key with a
different fingerprint. -/
inductive IdemError where
  | conflict
  deriving Repr, DecidableEq

/-- Modelled from the spec:
`execute(key, fingerprint, operation) → Response` of §4.3.  If the key is
absent, execute the operation (incrementing the side-effect counter), store
its result under the key with the fingerprint, and return it.  If the key is
present with a matching fingerprint, return the stored response without
re-executing.  If the key is present with a different fingerprint, fail with
a Conflict error.  The operation's result is `op`. -/
def executeIdem {α : Type} (st : IdemState α) (key fingerprint : String)
    (op : α) : Except IdemError α × IdemState α :=
  match lookupIdem st.cache key with
  | none =>
      (Except.ok op,
       { cache := (key, { fingerprint := fingerprint, response := op }) :: st.cache
         counter := st.counter + 1 })
  | some e =>
      if e.fingerprint = fingerprint then (Except.ok e.response, st)
      else (Except.error IdemError.conflict, st)

/-- C7: replaying `execute` with a present key and matching fingerprint
returns the stored response and leaves the state (and the side-effect
counter) unchanged; a present key with a different fingerprint fails with
Conflict and changes nothing; and after a first execution on a fresh key the
counter is exactly one higher and every number of replays leaves the state
at that post-state, so the operation's side effects happen exactly once
across the original call and all replays. -/
theorem executeIdem_replay_once_and_conflict {α : Type} (st : IdemState α)
    (key fp : String) (op : α) :
    (∀ e, lookupIdem st.cache key = some e → e.fingerprint = fp →
      executeIdem st key fp op = (Except.ok e.response, st)) ∧
    (∀ e, lookupIdem st.cache key = some e → e.fingerprint ≠ fp →
      executeIdem st key fp op = (Except.error IdemError.conflict, st)) ∧
    (lookupIdem st.cache key = none →
      (executeIdem st key fp op).2.counter = st.counter + 1 ∧
      executeIdem (executeIdem st key fp op).2 key fp op =
        ((executeIdem st key fp op).1, (executeIdem st key fp op).2) ∧
      ∀ n : ℕ,
        (fun t => (executeIdem t key fp op).2)^[n] (executeIdem st key fp op).2 =
          (executeIdem st key fp op).2) := by
  have hmatchcase : ∀ (t : IdemState α) e, lookupIdem t.cache key = some e →
      e.fingerprint = fp → executeIdem t key fp op = (Except.ok e.response, t) := by
    intro t e he hfp
    unfold executeIdem
    rw [he]
    show (if e.fingerprint = fp then (Except.ok e.response, t)
      else (Except.error IdemError.conflict, t)) = (Except.ok e.response, t)
    rw [if_pos hfp]
  have hconfcase : ∀ (t : IdemState α) e, lookupIdem t.cache key = some e →
      e.fingerprint ≠ fp →
      executeIdem t key fp op = (Except.error IdemError.conflict, t) := by
    intro t e he hfp
    unfold executeIdem
    rw [he]
    show (if e.fingerprint = fp then (Except.ok e.response, t)
      else (Except.error IdemError.conflict, t)) =
      (Except.error IdemError.conflict, t)
    rw [if_neg hfp]
  refine ⟨hmatchcase st, hconfcase st, ?_⟩
  intro hnone
  have hexec : executeIdem st key fp op =
      (Except.ok op,
       { cache := (key, { fingerprint := fp, response := op }) :: st.cache
         counter := st.counter + 1 }) := by
    unfold executeIdem
    rw [hnone]
  have h2 : (executeIdem st key fp op).2 =
      { cache := (key, { fingerprint := fp, response := op }) :: st.cache
        counter := st.counter + 1 } := by
    rw [hexec]
  have h1 : (executeIdem st key fp op).1 = Except.ok op := by
    rw [hexec]
  have hlook : lookupIdem ((executeIdem st key fp op).2).cache key =
      some { fingerprint := fp, response := op } := by
    rw [h2]
    unfold lookupIdem
    have hfind : List.find? (fun e : String × IdemEntry α => e.1 == key)
        ((key, { fingerprint := fp, response := op }) :: st.cache) =
        some (key, { fingerprint := fp, response := op }) :=
      List.find?_cons_of_pos _ (beq_self_eq_true key)
    rw [hfind]
    rfl
  have hreplay : executeIdem (executeIdem st key fp op).2 key fp op =
      ((executeIdem st key fp op).1, (executeIdem st key fp op).2) := by
    rw [h1]
    exact hmatchcase (executeIdem st key fp op).2
      { fingerprint := fp, response := op } hlook rfl
  refine ⟨by rw [h2], hreplay, ?_⟩
  intro n
  induction n with
  | zero => rfl
  | succ m ih =>
      rw [Function.iterate_succ_apply]
      show (fun t => (executeIdem t key fp op).2)^[m]
          ((executeIdem (executeIdem st key fp op).2 key fp op).2) =
          (executeIdem st key fp op).2
      rw [hreplay]
      exact ih

/-- Witness for C7: on the empty cache with key "K", fingerprint "F" and an
operation producing 42, the first call executes once (counter 1), the replay
returns the identical cached pair, and executing with the same key but a
different fingerprint "G" on the resulting cache is a Conflict that changes
nothing. -/
theorem executeIdem_replay_once_and_conflict_witness :
    (executeIdem (⟨[], 0⟩ : IdemState ℕ) "K" "F" 42).2.counter = 0 + 1 ∧
    executeIdem (executeIdem (⟨[], 0⟩ : IdemState ℕ) "K" "F" 42).2 "K" "F" 42 =
      ((executeIdem (⟨[], 0⟩ : IdemState ℕ) "K" "F" 42).1,
       (executeIdem (⟨[], 0⟩ : IdemState ℕ) "K" "F" 42).2) ∧
    executeIdem (executeIdem (⟨[], 0⟩ : IdemState ℕ) "K" "F" 42).2 "K" "G" 42 =
      (Except.error IdemError.conflict,
       (executeIdem (⟨[], 0⟩ : IdemState ℕ) "K" "F" 42).2) :=
  ⟨((executeIdem_replay_once_and_conflict ⟨[], 0⟩ "K" "F" 42).2.2 rfl).1,
   ((executeIdem_replay_once_and_conflict ⟨[], 0⟩ "K" "F" 42).2.2 rfl).2.1,
   (executeIdem_replay_once_and_conflict
      (executeIdem (⟨[], 0⟩ : IdemState ℕ) "K" "F" 42).2 "K" "G" 42).2.1
     { fingerprint := "F", response := 42 } (by decide) (by decide)⟩

end Procurement
